import Mathlib

/-!
Verification of the multi-user product viewer relay server (`server.js`).

The server keeps three pieces of global mutable state:
  * `hostSocketId : string | null` — the current host connection;
  * `pendingRequests : { requestId : { timeout, requester } }` — outstanding
    host-transfer requests, each holding a live 30-second timer handle;
  * `hostUploadBuffers : { socketId : asset[] }` — per-host upload buffers.

We embed that state as `ServerState`. Socket events and the `/upload`
endpoint become the constructors of `InEvent`; each handler body becomes a
branch of `step : ServerState → InEvent → ServerState × List Emit`, where
the emissions record `io.emit` (target `all`), `socket.broadcast.emit`
(target `exceptSender`) and `io.to(x).emit` (target `only x`).

`setTimeout` handles are modelled by the `armedTimers` component: creating
a pending request arms a timer, `clearTimeout` removes it, and the runtime
may deliver `InEvent.timeoutFire` only for a timer still present in
`armedTimers` (a cleared handle never fires). `uuidv4()` is modelled by
the fresh counter `nextUuid`, used both for request ids and asset ids.
-/

namespace ProductViewer

/-- A socket.io connection id (`socket.id`), an opaque string. -/
abbrev Conn := String

/-- An opaque relayed payload (model/camera/pointer state is relayed verbatim). -/
abbrev Payload := String

/-- One buffered upload descriptor, as pushed in `app.post('/upload')`:
`{ url: fileUrl, name: originalname, id: uuidv4(), sender: uploaderId }`. -/
structure Asset where
  url : String
  name : String
  id : Nat
  sender : Conn
  deriving DecidableEq

/-- One entry of `pendingRequests` (the timer handle is kept separately in
`armedTimers`, keyed by the same `requestId`). -/
structure PendingRequest where
  requestId : Nat
  requester : Conn
  deriving DecidableEq

/-- A live `setTimeout` handle created by `request-host`: it knows the
request it will auto-grant, the requester captured in its closure, and its
delay in milliseconds (always 30000 in the source). -/
structure HostTimer where
  requestId : Nat
  requester : Conn
  delayMs : Nat
  deriving DecidableEq

/-- Where an emission goes: `io.emit` → `all`, `socket.broadcast.emit` →
`exceptSender`, `io.to(x).emit` → `only x`. -/
inductive Target where
  | all : Target
  | exceptSender (c : Conn) : Target
  | only (c : Conn) : Target
  deriving DecidableEq

/-- The server→client events of the source, with their payloads. -/
inductive OutMsg where
  | hostChanged (h : Option Conn) : OutMsg
  | hostTransferRequest (requestId : Nat) (requester : Conn) : OutMsg
  | transferDenied (requestId : Nat) : OutMsg
  | hostRequestCancelled (requestId : Nat) : OutMsg
  | modelTransform (p : Payload) : OutMsg
  | cameraUpdate (p : Payload) : OutMsg
  | resetAll (p : Payload) : OutMsg
  | productUploadComplete (parts : List Asset) (sender : Conn) : OutMsg
  | hostPointerToggle (p : Payload) : OutMsg
  | hostPointerUpdate (p : Payload) : OutMsg
  deriving DecidableEq

/-- One emission performed by a handler. -/
structure Emit where
  target : Target
  msg : OutMsg
  deriving DecidableEq

/-- The connections a single emission is delivered to, given the list of
currently connected sockets. -/
def recipients (conns : List Conn) : Target → List Conn
  | Target.all => conns
  | Target.exceptSender c => conns.filter (fun d => d != c)
  | Target.only c => conns.filter (fun d => d == c)

/-- The server's global mutable state. -/
structure ServerState where
  hostSocketId : Option Conn
  pendingRequests : List PendingRequest
  armedTimers : List HostTimer
  hostUploadBuffers : List (Conn × List Asset)
  connections : List Conn
  nextUuid : Nat
  deriving DecidableEq

/-- The state at server start: no host, no requests, no timers, no buffers. -/
def initialState : ServerState :=
  ⟨none, [], [], [], [], 0⟩

/-- `hostUploadBuffers[c] || []`: JS property read with default. -/
def getBuf : List (Conn × List Asset) → Conn → List Asset
  | [], _ => []
  | (k, v) :: rest, c => if k = c then v else getBuf rest c

/-- `hostUploadBuffers[c] = v`: JS property write (replaces in place,
appends a new key at the end). -/
def setBuf : List (Conn × List Asset) → Conn → List Asset → List (Conn × List Asset)
  | [], c, v => [(c, v)]
  | (k, w) :: rest, c, v =>
      if k = c then (c, v) :: rest else (k, w) :: setBuf rest c v

/-- The client→server events handled by the source, each carrying the
sending connection, plus the `/upload` HTTP request and timer expiry. -/
inductive InEvent where
  | connect (c : Conn) : InEvent
  | registerHost (c : Conn) : InEvent
  | requestHost (c : Conn) : InEvent
  | releaseHost (c : Conn) (requestId : Nat) : InEvent
  | denyHost (c : Conn) (requestId : Nat) : InEvent
  | cancelHostRequest (c : Conn) : InEvent
  | giveUpHost (c : Conn) : InEvent
  | modelTransform (c : Conn) (p : Payload) : InEvent
  | cameraUpdate (c : Conn) (p : Payload) : InEvent
  | resetAll (c : Conn) (p : Payload) : InEvent
  | productUploadComplete (c : Conn) : InEvent
  | hostPointerToggle (c : Conn) (p : Payload) : InEvent
  | hostPointerUpdate (c : Conn) (p : Payload) : InEvent
  | browseSelection (c : Conn) (parts : List Asset) : InEvent
  | upload (uploaderId : Option String) (role : Option String)
      (filename : String) (baseUrl : String) (hasFile : Bool) : InEvent
  | disconnect (c : Conn) : InEvent
  | timeoutFire (requestId : Nat) (requester : Conn) : InEvent
  deriving DecidableEq

/-- One dispatch of the server's event loop: the body of each
`socket.on(...)` handler, the `/upload` handler, and the `setTimeout`
callback of `request-host`, translated branch by branch. -/
def step (s : ServerState) (e : InEvent) : ServerState × List Emit :=
  match e with
  | InEvent.connect c =>
      ({ s with connections := s.connections ++ [c] }, [])
  | InEvent.registerHost c =>
      -- hostSocketId = socket.id; io.emit('host-changed', { hostSocketId })
      ({ s with hostSocketId := some c }, [⟨Target.all, OutMsg.hostChanged (some c)⟩])
  | InEvent.requestHost c =>
      match s.hostSocketId with
      | none =>
          ({ s with hostSocketId := some c },
           [⟨Target.all, OutMsg.hostChanged (some c)⟩])
      | some h =>
          if h = c then (s, [])
          else
            -- fresh requestId, 30-second timer, notify the current host only
            ({ s with
                pendingRequests := s.pendingRequests ++ [⟨s.nextUuid, c⟩],
                armedTimers := s.armedTimers ++ [⟨s.nextUuid, c, 30000⟩],
                nextUuid := s.nextUuid + 1 },
             [⟨Target.only h, OutMsg.hostTransferRequest s.nextUuid c⟩])
  | InEvent.releaseHost _ rid =>
      -- if (pendingRequests[requestId]) { clearTimeout; hostSocketId = requester; ... }
      match s.pendingRequests.find? (fun pr => pr.requestId == rid) with
      | some pr =>
          ({ s with
              hostSocketId := some pr.requester,
              armedTimers := s.armedTimers.filter (fun t => t.requestId != rid),
              pendingRequests := s.pendingRequests.filter (fun q => q.requestId != rid) },
           [⟨Target.all, OutMsg.hostChanged (some pr.requester)⟩])
      | none => (s, [])
  | InEvent.denyHost _ rid =>
      match s.pendingRequests.find? (fun pr => pr.requestId == rid) with
      | some pr =>
          ({ s with
              armedTimers := s.armedTimers.filter (fun t => t.requestId != rid),
              pendingRequests := s.pendingRequests.filter (fun q => q.requestId != rid) },
           [⟨Target.only pr.requester, OutMsg.transferDenied rid⟩])
      | none => (s, [])
  | InEvent.cancelHostRequest c =>
      -- loop over pendingRequests; clearTimeout + delete + notify host for
      -- every request whose requester is the sender
      let removed := s.pendingRequests.filter (fun pr => pr.requester == c)
      ({ s with
          pendingRequests := s.pendingRequests.filter (fun pr => pr.requester != c),
          armedTimers := s.armedTimers.filter
            (fun t => !(removed.any (fun pr => pr.requestId == t.requestId))) },
       match s.hostSocketId with
       | some h => removed.map (fun pr => ⟨Target.only h, OutMsg.hostRequestCancelled pr.requestId⟩)
       | none => [])
  | InEvent.giveUpHost c =>
      if s.hostSocketId = some c then
        ({ s with hostSocketId := none }, [⟨Target.all, OutMsg.hostChanged none⟩])
      else (s, [])
  | InEvent.modelTransform c p =>
      if s.hostSocketId = some c then
        (s, [⟨Target.exceptSender c, OutMsg.modelTransform p⟩])
      else (s, [])
  | InEvent.cameraUpdate c p =>
      if s.hostSocketId = some c then
        (s, [⟨Target.exceptSender c, OutMsg.cameraUpdate p⟩])
      else (s, [])
  | InEvent.resetAll c p =>
      if s.hostSocketId = some c then
        (s, [⟨Target.exceptSender c, OutMsg.resetAll p⟩])
      else (s, [])
  | InEvent.productUploadComplete c =>
      -- const partsBuffer = hostUploadBuffers[uploaderId] || []
      let partsBuffer := getBuf s.hostUploadBuffers c
      if partsBuffer.length > 0 then
        ({ s with hostUploadBuffers := setBuf s.hostUploadBuffers c [] },
         [⟨Target.all, OutMsg.productUploadComplete partsBuffer c⟩])
      else (s, [])
  | InEvent.hostPointerToggle c p =>
      (s, [⟨Target.exceptSender c, OutMsg.hostPointerToggle p⟩])
  | InEvent.hostPointerUpdate c p =>
      (s, [⟨Target.exceptSender c, OutMsg.hostPointerUpdate p⟩])
  | InEvent.browseSelection c parts =>
      if s.hostSocketId = some c then
        (s, [⟨Target.all, OutMsg.productUploadComplete parts c⟩])
      else (s, [])
  | InEvent.upload uploaderId role filename baseUrl hasFile =>
      if hasFile = false then (s, [])
      else
        let fileUrl := baseUrl ++ "/uploads/" ++ filename
        -- const uploaderRole = req.headers['x-uploader-role'] || 'viewer'
        let uploaderRole :=
          match role with
          | some r => if r = "" then "viewer" else r
          | none => "viewer"
        match uploaderId with
        | some uid =>
            -- if (uploaderRole === 'host' && uploaderId) { push to buffer }
            if uploaderRole = "host" ∧ uid ≠ "" then
              ({ s with
                  hostUploadBuffers :=
                    setBuf s.hostUploadBuffers uid
                      (getBuf s.hostUploadBuffers uid ++
                        [⟨fileUrl, filename, s.nextUuid, uid⟩]),
                  nextUuid := s.nextUuid + 1 }, [])
            else (s, [])
        | none => (s, [])
  | InEvent.disconnect c =>
      let removed := s.pendingRequests.filter (fun pr => pr.requester == c)
      ({ s with
          hostSocketId := if s.hostSocketId = some c then none else s.hostSocketId,
          connections := s.connections.erase c,
          pendingRequests := s.pendingRequests.filter (fun pr => pr.requester != c),
          armedTimers := s.armedTimers.filter
            (fun t => !(removed.any (fun pr => pr.requestId == t.requestId))) },
       if s.hostSocketId = some c then [⟨Target.all, OutMsg.hostChanged none⟩] else [])
  | InEvent.timeoutFire rid requester =>
      -- the setTimeout callback: unconditional auto-grant
      ({ s with
          hostSocketId := some requester,
          pendingRequests := s.pendingRequests.filter (fun pr => pr.requestId != rid),
          armedTimers := s.armedTimers.filter (fun t => t.requestId != rid) },
       [⟨Target.all, OutMsg.hostChanged (some requester)⟩])

/-- The runtime delivers an event iff its handler may run: a socket event
always may; a `setTimeout` callback runs only while its handle is still
armed (never after `clearTimeout`). -/
def enabled (s : ServerState) : InEvent → Prop
  | InEvent.timeoutFire rid requester => ⟨rid, requester, 30000⟩ ∈ s.armedTimers
  | _ => True

/-- Run a finite sequence of dispatches, accumulating all emissions. -/
def run (s : ServerState) : List InEvent → ServerState × List Emit
  | [] => (s, [])
  | e :: es =>
      let r := step s e
      let r2 := run r.1 es
      (r2.1, r.2 ++ r2.2)

/-- `hostId == self` for a given connection. -/
def isHost (s : ServerState) (c : Conn) : Prop :=
  s.hostSocketId = some c

/-! ### Helper lemmas about the embedding -/

theorem getBuf_setBuf_self (bufs : List (Conn × List Asset)) (c : Conn)
    (v : List Asset) : getBuf (setBuf bufs c v) c = v := by
  induction bufs with
  | nil => simp [getBuf, setBuf]
  | cons p rest ih =>
      obtain ⟨k, w⟩ := p
      by_cases hk : k = c
      · simp [getBuf, setBuf, hk]
      · simp [getBuf, setBuf, hk, ih]

theorem run_append (s : ServerState) (es es' : List InEvent) :
    run s (es ++ es')
      = ((run (run s es).1 es').1, (run s es).2 ++ (run (run s es).1 es').2) := by
  induction es generalizing s with
  | nil => simp [run]
  | cons e rest ih => simp [run, ih, List.append_assoc]

/-- An example server state used to exhibit concrete executions:
host `"A"`, one pending request by `"B"` (id 0) with its armed timer,
no buffers, connections `"A"` and `"B"`. -/
def exState : ServerState :=
  ⟨some "A", [⟨0, "B"⟩], [⟨0, "B", 30000⟩], [], ["A", "B"], 1⟩

/-! ### C5: single host invariant -/

/-- C5: after processing any finite sequence of events, at most one
connection satisfies `hostId == self` — the host state is a single
optional identifier, so two simultaneous hosts are impossible. -/
theorem single_host_invariant (s0 : ServerState) (es : List InEvent)
    (c₁ c₂ : Conn) (h₁ : isHost (run s0 es).1 c₁) (h₂ : isHost (run s0 es).1 c₂) :
    c₁ = c₂ := by
  unfold isHost at h₁ h₂
  rw [h₁] at h₂
  exact Option.some.inj h₂

theorem single_host_invariant_witness :
    isHost (run initialState [InEvent.registerHost "A"]).1 "A" ∧ ("A" : Conn) = "A" :=
  ⟨rfl, single_host_invariant initialState [InEvent.registerHost "A"] "A" "A" rfl rfl⟩

/-! ### C9: pointer relay is not host-gated -/

/-- C9: `host-pointer-toggle` and `host-pointer-update` are broadcast to
all connections except the sender for every sender and every state — no
host check is performed (the result does not depend on `hostSocketId`). -/
theorem pointer_relay_ungated (s : ServerState) (c : Conn) (p : Payload) :
    step s (InEvent.hostPointerToggle c p)
        = (s, [⟨Target.exceptSender c, OutMsg.hostPointerToggle p⟩]) ∧
    step s (InEvent.hostPointerUpdate c p)
        = (s, [⟨Target.exceptSender c, OutMsg.hostPointerUpdate p⟩]) ∧
    ∀ d, d ∈ recipients s.connections (Target.exceptSender c)
        ↔ d ∈ s.connections ∧ d ≠ c := by
  refine ⟨rfl, rfl, ?_⟩
  intro d
  simp [recipients, List.mem_filter]

/-! ### C7: stale requestId is a benign no-op -/

/-- C7: `release-host` and `deny-host` with a `requestId` not present in
`pendingRequests` leave the whole state unchanged and emit nothing. -/
theorem stale_request_noop (s : ServerState) (c c' : Conn) (rid : Nat)
    (h : ∀ pr ∈ s.pendingRequests, pr.requestId ≠ rid) :
    step s (InEvent.releaseHost c rid) = (s, []) ∧
    step s (InEvent.denyHost c' rid) = (s, []) := by
  have hf : s.pendingRequests.find? (fun pr => pr.requestId == rid) = none := by
    apply List.find?_eq_none.mpr
    intro pr hpr
    simpa using h pr hpr
  constructor <;> simp [step, hf]

theorem stale_request_noop_witness :
    step exState (InEvent.releaseHost "A" 5) = (exState, []) ∧
    step exState (InEvent.denyHost "A" 5) = (exState, []) :=
  stale_request_noop exState "A" "A" 5 (by decide)

/-! ### C1: host-gated relay for model-transform / camera-update / reset-all -/

/-- C1: for each of `model-transform`, `camera-update`, `reset-all`: a
message from the current host is broadcast unmodified to every connection
except the sender; a message from any other connection produces zero
emissions (and in particular no error back to the sender), and the state
is unchanged in both cases. -/
theorem host_gated_relay (s : ServerState) (c : Conn) (p : Payload) :
    (isHost s c →
      step s (InEvent.modelTransform c p)
          = (s, [⟨Target.exceptSender c, OutMsg.modelTransform p⟩]) ∧
      step s (InEvent.cameraUpdate c p)
          = (s, [⟨Target.exceptSender c, OutMsg.cameraUpdate p⟩]) ∧
      step s (InEvent.resetAll c p)
          = (s, [⟨Target.exceptSender c, OutMsg.resetAll p⟩]) ∧
      ∀ d, d ∈ recipients s.connections (Target.exceptSender c)
          ↔ d ∈ s.connections ∧ d ≠ c) ∧
    (¬ isHost s c →
      step s (InEvent.modelTransform c p) = (s, []) ∧
      step s (InEvent.cameraUpdate c p) = (s, []) ∧
      step s (InEvent.resetAll c p) = (s, [])) := by
  constructor
  · intro h
    unfold isHost at h
    refine ⟨by simp [step, h], by simp [step, h], by simp [step, h], ?_⟩
    intro d
    simp [recipients, List.mem_filter]
  · intro h
    unfold isHost at h
    exact ⟨by simp [step, h], by simp [step, h], by simp [step, h]⟩

theorem host_gated_relay_witness :
    step exState (InEvent.modelTransform "A" "pose")
        = (exState, [⟨Target.exceptSender "A", OutMsg.modelTransform "pose"⟩]) ∧
    step exState (InEvent.modelTransform "B" "pose") = (exState, []) :=
  ⟨((host_gated_relay exState "A" "pose").1 rfl).1,
   ((host_gated_relay exState "B" "pose").2 (by simp [isHost, exState])).1⟩

/-! ### C4: disconnect cleanup -/

/-- C4: when the current host disconnects, `hostSocketId` is cleared and a
single `host-changed{hostSocketId: null}` is broadcast to all; every
pending request by the disconnecting connection is removed and its timer
disarmed, with no emission for it (a non-host disconnect emits nothing);
a connection that is neither host nor requester changes neither the host
nor the pending requests nor the timers. -/
theorem disconnect_cleanup (s : ServerState) (c : Conn) :
    (isHost s c →
      (step s (InEvent.disconnect c)).1.hostSocketId = none ∧
      (step s (InEvent.disconnect c)).2 = [⟨Target.all, OutMsg.hostChanged none⟩]) ∧
    (¬ isHost s c → (step s (InEvent.disconnect c)).2 = []) ∧
    ((step s (InEvent.disconnect c)).1.pendingRequests
        = s.pendingRequests.filter (fun pr => pr.requester != c)) ∧
    (∀ pr ∈ s.pendingRequests, pr.requester = c →
      ∀ t ∈ (step s (InEvent.disconnect c)).1.armedTimers, t.requestId ≠ pr.requestId) ∧
    (¬ isHost s c → (∀ pr ∈ s.pendingRequests, pr.requester ≠ c) →
      (step s (InEvent.disconnect c)).1.hostSocketId = s.hostSocketId ∧
      (step s (InEvent.disconnect c)).1.pendingRequests = s.pendingRequests ∧
      (step s (InEvent.disconnect c)).1.armedTimers = s.armedTimers) := by
  unfold isHost
  refine ⟨fun h => ⟨by simp [step, h], by simp [step, h]⟩, fun h => by simp [step, h],
    by simp [step], ?_, fun h hreq => ?_⟩
  · intro pr hpr hreq t ht
    simp only [step, List.mem_filter, Bool.not_eq_true', List.any_eq_false,
      List.mem_filter, beq_iff_eq, beq_eq_false_iff_ne] at ht
    intro heq
    exact ht.2 pr ⟨hpr, hreq⟩ (heq.symm ▸ rfl)
  · have hpend : s.pendingRequests.filter (fun pr => pr.requester != c)
        = s.pendingRequests :=
      List.filter_eq_self.mpr (fun pr hpr => by simpa using hreq pr hpr)
    have hrem : s.pendingRequests.filter (fun pr => pr.requester == c) = [] :=
      List.filter_eq_nil_iff.mpr (fun pr hpr => by simpa using hreq pr hpr)
    refine ⟨by simp [step, h], by simp [step, hpend], ?_⟩
    simp [step, hrem]

theorem disconnect_cleanup_witness :
    (step exState (InEvent.disconnect "A")).1.hostSocketId = none ∧
    (step exState (InEvent.disconnect "A")).2
        = [⟨Target.all, OutMsg.hostChanged none⟩] ∧
    (step exState (InEvent.disconnect "C")).1.pendingRequests
        = exState.pendingRequests := by
  have h1 := (disconnect_cleanup exState "A").1 rfl
  have h2 := (disconnect_cleanup exState "C").2.2.2.2
    (by simp [isHost, exState]) (by decide)
  exact ⟨h1.1, h1.2, h2.2.1⟩

/-! ### Step equations for the upload buffer -/

theorem step_upload_host (s : ServerState) (c : Conn) (f base : String)
    (hc : c ≠ "") :
    step s (InEvent.upload (some c) (some "host") f base true)
      = ({ s with
            hostUploadBuffers := setBuf s.hostUploadBuffers c
              (getBuf s.hostUploadBuffers c ++
                [⟨base ++ "/uploads/" ++ f, f, s.nextUuid, c⟩]),
            nextUuid := s.nextUuid + 1 }, []) := by
  simp [step, hc]

theorem step_flush_nonempty (s : ServerState) (c : Conn)
    (h : getBuf s.hostUploadBuffers c ≠ []) :
    step s (InEvent.productUploadComplete c)
      = ({ s with hostUploadBuffers := setBuf s.hostUploadBuffers c [] },
         [⟨Target.all, OutMsg.productUploadComplete (getBuf s.hostUploadBuffers c) c⟩]) := by
  simp only [step]
  rw [if_pos (by simpa using List.length_pos.mpr h)]

theorem step_flush_empty (s : ServerState) (c : Conn)
    (h : getBuf s.hostUploadBuffers c = []) :
    step s (InEvent.productUploadComplete c) = (s, []) := by
  simp [step, h]

/-! ### C6: delivery of product-upload-complete -/

/-- State with host `"A"` holding one buffered asset, connections `"A"`
and `"B"`; used to exhibit concrete flush behaviour. -/
def flushState : ServerState :=
  ⟨some "A", [], [], [("A", [⟨"http://x/uploads/f.glb", "f.glb", 0, "A"⟩])],
   ["A", "B"], 1⟩

/-- C6 is false as stated: flushing host `"A"`'s buffer emits a single
`product-upload-complete` whose target is the global broadcast, and the
sender `"A"` itself is among the recipients — the sender is not excluded. -/
theorem product_upload_sender_excluded_counterexample :
    (step flushState (InEvent.productUploadComplete "A")).2
      = [⟨Target.all, OutMsg.productUploadComplete
            [⟨"http://x/uploads/f.glb", "f.glb", 0, "A"⟩] "A"⟩] ∧
    "A" ∈ recipients flushState.connections Target.all := by
  refine ⟨rfl, by simp [recipients, flushState]⟩

/-- C6 (amended): every `product-upload-complete` emission — whether from
a buffer flush or from a host browse-selection — uses the global
broadcast (`io.emit`), so it is delivered to every connected client
including the originating sender, not excluding it. -/
theorem product_upload_broadcast_to_all (s : ServerState) (c : Conn)
    (parts : List Asset) :
    (∀ em ∈ (step s (InEvent.productUploadComplete c)).2, em.target = Target.all) ∧
    (∀ em ∈ (step s (InEvent.browseSelection c parts)).2, em.target = Target.all) ∧
    recipients s.connections Target.all = s.connections := by
  refine ⟨?_, ?_, rfl⟩
  · intro em hem
    simp only [step] at hem
    split at hem
    · simp at hem
      rw [hem]
    · simp at hem
  · intro em hem
    simp only [step] at hem
    split at hem
    · simp at hem
      rw [hem]
    · simp at hem

theorem product_upload_broadcast_to_all_witness :
    (⟨Target.all, OutMsg.productUploadComplete
        [⟨"http://x/uploads/f.glb", "f.glb", 0, "A"⟩] "A"⟩ : Emit).target
      = Target.all ∧
    recipients flushState.connections Target.all = flushState.connections :=
  ⟨(product_upload_broadcast_to_all flushState "A" []).1 _ (by simp [step, flushState, getBuf, setBuf]),
   (product_upload_broadcast_to_all flushState "A" []).2.2⟩

/-! ### C10: buffering is driven by the role header, not by hostId -/

/-- C10: neither `/upload` buffering nor the flush compares the sender
against `hostSocketId`: an upload with header role `host` and a non-empty
socket id is appended to that connection's buffer even when it is not the
current host, and a flush from a non-host with a non-empty buffer still
broadcasts that buffer to all connections. -/
theorem upload_ignores_host_identity (s : ServerState) (c : Conn)
    (f base : String) (hc : c ≠ "") (_hnothost : ¬ isHost s c) :
    getBuf (step s (InEvent.upload (some c) (some "host") f base true)).1.hostUploadBuffers c
      = getBuf s.hostUploadBuffers c ++ [⟨base ++ "/uploads/" ++ f, f, s.nextUuid, c⟩] ∧
    (getBuf s.hostUploadBuffers c ≠ [] →
      (step s (InEvent.productUploadComplete c)).2
        = [⟨Target.all, OutMsg.productUploadComplete (getBuf s.hostUploadBuffers c) c⟩]) := by
  constructor
  · rw [step_upload_host s c f base hc]
    exact getBuf_setBuf_self _ _ _
  · intro hne
    rw [step_flush_nonempty s c hne]

theorem upload_ignores_host_identity_witness :
    getBuf (step exState (InEvent.upload (some "B") (some "host") "f.glb" "http://x" true)).1.hostUploadBuffers "B"
      = [⟨"http://x/uploads/f.glb", "f.glb", 1, "B"⟩] := by
  have h := upload_ignores_host_identity exState "B" "f.glb" "http://x"
    (by decide) (by simp [isHost, exState])
  simp only [h.1]
  rfl

/-! ### C3: buffer atomicity -/

/-- The `/upload` requests for a list of filenames, all sent by `H` with
header role `host`. -/
def hostUploadEvents (H : Conn) (base : String) : List String → List InEvent
  | [] => []
  | f :: fs => InEvent.upload (some H) (some "host") f base true
      :: hostUploadEvents H base fs

/-- The buffered assets those uploads produce, in insertion order, with
ids drawn from the fresh counter starting at `n0`. -/
def expectedAssets (H : Conn) (base : String) (n0 : Nat) : List String → List Asset
  | [] => []
  | f :: fs => ⟨base ++ "/uploads/" ++ f, f, n0, H⟩
      :: expectedAssets H base (n0 + 1) fs

theorem expectedAssets_length (H : Conn) (base : String) (fs : List String) :
    ∀ n0, (expectedAssets H base n0 fs).length = fs.length := by
  induction fs with
  | nil => intro n0; rfl
  | cons f fs ih => intro n0; simp [expectedAssets, ih]

theorem hostUploads_accumulate (H : Conn) (base : String) (hH : H ≠ "")
    (fs : List String) :
    ∀ s : ServerState,
      getBuf (run s (hostUploadEvents H base fs)).1.hostUploadBuffers H
          = getBuf s.hostUploadBuffers H ++ expectedAssets H base s.nextUuid fs ∧
      (run s (hostUploadEvents H base fs)).2 = [] := by
  induction fs with
  | nil => intro s; simp [hostUploadEvents, run, expectedAssets]
  | cons f fs ih =>
      intro s
      have hstep := step_upload_host s H f base hH
      constructor
      · simp only [hostUploadEvents, run, hstep]
        rw [(ih _).1]
        simp [getBuf_setBuf_self, expectedAssets]
      · simp only [hostUploadEvents, run, hstep]
        simp [(ih _).2]

/-- C3: `k ≥ 1` accepted host uploads for `H` followed by one
`product-upload-complete` from `H` produce exactly one broadcast, carrying
exactly the `k` buffered entries in insertion order; the buffer is then
empty, and a second flush with no new uploads is a no-op with zero
broadcasts. -/
theorem buffer_flush_atomicity (s : ServerState) (H : Conn) (base : String)
    (fs : List String) (hH : H ≠ "") (hk : fs ≠ [])
    (hbuf : getBuf s.hostUploadBuffers H = []) :
    (run s (hostUploadEvents H base fs ++ [InEvent.productUploadComplete H])).2
      = [⟨Target.all,
          OutMsg.productUploadComplete (expectedAssets H base s.nextUuid fs) H⟩] ∧
    (expectedAssets H base s.nextUuid fs).length = fs.length ∧
    getBuf (run s (hostUploadEvents H base fs
        ++ [InEvent.productUploadComplete H])).1.hostUploadBuffers H = [] ∧
    step (run s (hostUploadEvents H base fs
        ++ [InEvent.productUploadComplete H])).1 (InEvent.productUploadComplete H)
      = ((run s (hostUploadEvents H base fs
          ++ [InEvent.productUploadComplete H])).1, []) := by
  have hacc := hostUploads_accumulate H base hH fs s
  have hfull : getBuf (run s (hostUploadEvents H base fs)).1.hostUploadBuffers H
      = expectedAssets H base s.nextUuid fs := by
    rw [hacc.1, hbuf]
    simp
  have hne : getBuf (run s (hostUploadEvents H base fs)).1.hostUploadBuffers H ≠ [] := by
    rw [hfull]
    intro hnil
    apply hk
    have := expectedAssets_length H base fs s.nextUuid
    rw [hnil] at this
    exact List.length_eq_zero.mp this.symm
  have hflush := step_flush_nonempty (run s (hostUploadEvents H base fs)).1 H hne
  have hafter : getBuf (step (run s (hostUploadEvents H base fs)).1
      (InEvent.productUploadComplete H)).1.hostUploadBuffers H = [] := by
    rw [hflush]
    exact getBuf_setBuf_self _ _ _
  rw [run_append]
  refine ⟨?_, expectedAssets_length H base fs s.nextUuid, ?_, ?_⟩
  · rw [hacc.2]
    simp only [run, hflush, hfull]
    simp
  · simpa [run, hflush] using hafter
  · have : (run (run s (hostUploadEvents H base fs)).1
        [InEvent.productUploadComplete H]).1
        = (step (run s (hostUploadEvents H base fs)).1
            (InEvent.productUploadComplete H)).1 := by
      simp [run]
    rw [this]
    exact step_flush_empty _ _ hafter

theorem buffer_flush_atomicity_witness :
    (run initialState (hostUploadEvents "H" "http://x" ["a.glb", "b.glb"]
        ++ [InEvent.productUploadComplete "H"])).2
      = [⟨Target.all, OutMsg.productUploadComplete
            [⟨"http://x/uploads/a.glb", "a.glb", 0, "H"⟩,
             ⟨"http://x/uploads/b.glb", "b.glb", 1, "H"⟩] "H"⟩] := by
  have h := buffer_flush_atomicity initialState "H" "http://x" ["a.glb", "b.glb"]
    (by decide) (by decide) rfl
  rw [h.1]
  rfl

/-! ### Liveness of a pending request (for C2 and C8) -/

/-- The events that resolve or remove the pending request `rid` whose
requester is `B`: explicit grant, denial, cancellation or disconnect of
the requester, or the expiry of the request's own timer. -/
def removesRequest (rid : Nat) (B : Conn) : InEvent → Bool
  | InEvent.releaseHost _ r => r == rid
  | InEvent.denyHost _ r => r == rid
  | InEvent.cancelHostRequest c => c == B
  | InEvent.disconnect c => c == B
  | InEvent.timeoutFire r _ => r == rid
  | _ => false

/-- The pending request `rid` by `B` is live in `s`: its 30-second timer
is armed, its id is below the fresh-id counter, and no pending request
with that id has a different requester. -/
def RequestLive (rid : Nat) (B : Conn) (s : ServerState) : Prop :=
  HostTimer.mk rid B 30000 ∈ s.armedTimers ∧
  rid < s.nextUuid ∧
  ∀ pr ∈ s.pendingRequests, pr.requestId = rid → pr.requester = B

theorem requestLive_step (rid : Nat) (B : Conn) (s : ServerState) (e : InEvent)
    (hlive : RequestLive rid B s) (hnr : removesRequest rid B e = false) :
    RequestLive rid B (step s e).1 := by
  obtain ⟨ht, hlt, hpend⟩ := hlive
  cases e with
  | connect c => exact ⟨ht, hlt, hpend⟩
  | registerHost c => exact ⟨ht, hlt, hpend⟩
  | requestHost c =>
      simp only [RequestLive, step]
      split
      · exact ⟨ht, hlt, hpend⟩
      · split
        · exact ⟨ht, hlt, hpend⟩
        · refine ⟨List.mem_append_left _ ht, Nat.lt_succ_of_lt hlt, ?_⟩
          intro pr hpr hid
          rcases List.mem_append.mp hpr with h1 | h2
          · exact hpend pr h1 hid
          · rw [List.mem_singleton.mp h2] at hid
            exact absurd hid (Nat.ne_of_gt hlt)
  | releaseHost c r =>
      simp only [removesRequest, beq_eq_false_iff_ne, ne_eq] at hnr
      simp only [RequestLive, step]
      split
      · refine ⟨List.mem_filter.mpr ⟨ht, by simpa using fun h => hnr h.symm⟩, hlt, ?_⟩
        intro pr hpr hid
        exact hpend pr (List.mem_filter.mp hpr).1 hid
      · exact ⟨ht, hlt, hpend⟩
  | denyHost c r =>
      simp only [removesRequest, beq_eq_false_iff_ne, ne_eq] at hnr
      simp only [RequestLive, step]
      split
      · refine ⟨List.mem_filter.mpr ⟨ht, by simpa using fun h => hnr h.symm⟩, hlt, ?_⟩
        intro pr hpr hid
        exact hpend pr (List.mem_filter.mp hpr).1 hid
      · exact ⟨ht, hlt, hpend⟩
  | cancelHostRequest c =>
      simp only [removesRequest, beq_eq_false_iff_ne, ne_eq] at hnr
      refine ⟨List.mem_filter.mpr ⟨ht, ?_⟩, hlt, ?_⟩
      · simp only [Bool.not_eq_true', List.any_eq_false, List.mem_filter, beq_iff_eq,
          and_imp]
        intro pr hpr hreq hid
        exact hnr (hreq ▸ hpend pr hpr hid)
      · intro pr hpr hid
        exact hpend pr (List.mem_filter.mp hpr).1 hid
  | giveUpHost c =>
      simp only [RequestLive, step]
      split
      · exact ⟨ht, hlt, hpend⟩
      · exact ⟨ht, hlt, hpend⟩
  | modelTransform c p =>
      simp only [RequestLive, step]
      split
      · exact ⟨ht, hlt, hpend⟩
      · exact ⟨ht, hlt, hpend⟩
  | cameraUpdate c p =>
      simp only [RequestLive, step]
      split
      · exact ⟨ht, hlt, hpend⟩
      · exact ⟨ht, hlt, hpend⟩
  | resetAll c p =>
      simp only [RequestLive, step]
      split
      · exact ⟨ht, hlt, hpend⟩
      · exact ⟨ht, hlt, hpend⟩
  | productUploadComplete c =>
      simp only [RequestLive, step]
      split
      · exact ⟨ht, hlt, hpend⟩
      · exact ⟨ht, hlt, hpend⟩
  | hostPointerToggle c p => exact ⟨ht, hlt, hpend⟩
  | hostPointerUpdate c p => exact ⟨ht, hlt, hpend⟩
  | browseSelection c parts =>
      simp only [RequestLive, step]
      split
      · exact ⟨ht, hlt, hpend⟩
      · exact ⟨ht, hlt, hpend⟩
  | upload uid role f base hasFile =>
      simp only [RequestLive, step]
      split
      · exact ⟨ht, hlt, hpend⟩
      · cases uid with
        | none => exact ⟨ht, hlt, hpend⟩
        | some u =>
            repeat' split
            all_goals first
              | exact ⟨ht, Nat.lt_succ_of_lt hlt, hpend⟩
              | exact ⟨ht, hlt, hpend⟩
  | disconnect c =>
      simp only [removesRequest, beq_eq_false_iff_ne, ne_eq] at hnr
      refine ⟨List.mem_filter.mpr ⟨ht, ?_⟩, hlt, ?_⟩
      · simp only [Bool.not_eq_true', List.any_eq_false, List.mem_filter, beq_iff_eq,
          and_imp]
        intro pr hpr hreq hid
        exact hnr (hreq ▸ hpend pr hpr hid)
      · intro pr hpr hid
        exact hpend pr (List.mem_filter.mp hpr).1 hid
  | timeoutFire r req =>
      simp only [removesRequest, beq_eq_false_iff_ne, ne_eq] at hnr
      refine ⟨List.mem_filter.mpr ⟨ht, by simpa using fun h => hnr h.symm⟩, hlt, ?_⟩
      intro pr hpr hid
      exact hpend pr (List.mem_filter.mp hpr).1 hid

theorem requestLive_run (rid : Nat) (B : Conn) (es : List InEvent) :
    ∀ s, RequestLive rid B s → (∀ e ∈ es, removesRequest rid B e = false) →
      RequestLive rid B (run s es).1 := by
  induction es with
  | nil => intro s h _; exact h
  | cons e es ih =>
      intro s h hes
      exact ih _ (requestLive_step rid B s e h (hes e (List.mem_cons_self _ _)))
        (fun e' he' => hes e' (List.mem_cons_of_mem _ he'))

/-- Every dispatch keeps the fresh-id counter monotone and only ever arms
a new timer carrying the current counter value. -/
theorem step_timers_bound (s : ServerState) (e : InEvent) :
    s.nextUuid ≤ (step s e).1.nextUuid ∧
    ∀ t ∈ (step s e).1.armedTimers, t ∈ s.armedTimers ∨ t.requestId = s.nextUuid := by
  cases e with
  | connect c => exact ⟨Nat.le_refl _, fun t ht => Or.inl ht⟩
  | registerHost c => exact ⟨Nat.le_refl _, fun t ht => Or.inl ht⟩
  | requestHost c =>
      simp only [step]
      split
      · exact ⟨Nat.le_refl _, fun t ht => Or.inl ht⟩
      · split
        · exact ⟨Nat.le_refl _, fun t ht => Or.inl ht⟩
        · refine ⟨Nat.le_succ _, fun t ht => ?_⟩
          rcases List.mem_append.mp ht with h1 | h2
          · exact Or.inl h1
          · exact Or.inr (by rw [List.mem_singleton.mp h2])
  | releaseHost c r =>
      simp only [step]
      split
      · exact ⟨Nat.le_refl _, fun t ht => Or.inl (List.mem_of_mem_filter ht)⟩
      · exact ⟨Nat.le_refl _, fun t ht => Or.inl ht⟩
  | denyHost c r =>
      simp only [step]
      split
      · exact ⟨Nat.le_refl _, fun t ht => Or.inl (List.mem_of_mem_filter ht)⟩
      · exact ⟨Nat.le_refl _, fun t ht => Or.inl ht⟩
  | cancelHostRequest c =>
      exact ⟨Nat.le_refl _, fun t ht => Or.inl (List.mem_of_mem_filter ht)⟩
  | giveUpHost c =>
      simp only [step]
      split
      · exact ⟨Nat.le_refl _, fun t ht => Or.inl ht⟩
      · exact ⟨Nat.le_refl _, fun t ht => Or.inl ht⟩
  | modelTransform c p =>
      simp only [step]
      split
      · exact ⟨Nat.le_refl _, fun t ht => Or.inl ht⟩
      · exact ⟨Nat.le_refl _, fun t ht => Or.inl ht⟩
  | cameraUpdate c p =>
      simp only [step]
      split
      · exact ⟨Nat.le_refl _, fun t ht => Or.inl ht⟩
      · exact ⟨Nat.le_refl _, fun t ht => Or.inl ht⟩
  | resetAll c p =>
      simp only [step]
      split
      · exact ⟨Nat.le_refl _, fun t ht => Or.inl ht⟩
      · exact ⟨Nat.le_refl _, fun t ht => Or.inl ht⟩
  | productUploadComplete c =>
      simp only [step]
      split
      · exact ⟨Nat.le_refl _, fun t ht => Or.inl ht⟩
      · exact ⟨Nat.le_refl _, fun t ht => Or.inl ht⟩
  | hostPointerToggle c p => exact ⟨Nat.le_refl _, fun t ht => Or.inl ht⟩
  | hostPointerUpdate c p => exact ⟨Nat.le_refl _, fun t ht => Or.inl ht⟩
  | browseSelection c parts =>
      simp only [step]
      split
      · exact ⟨Nat.le_refl _, fun t ht => Or.inl ht⟩
      · exact ⟨Nat.le_refl _, fun t ht => Or.inl ht⟩
  | upload uid role f base hasFile =>
      simp only [step]
      split
      · exact ⟨Nat.le_refl _, fun t ht => Or.inl ht⟩
      · cases uid with
        | none => exact ⟨Nat.le_refl _, fun t ht => Or.inl ht⟩
        | some u =>
            repeat' split
            all_goals first
              | exact ⟨Nat.le_succ _, fun t ht => Or.inl ht⟩
              | exact ⟨Nat.le_refl _, fun t ht => Or.inl ht⟩
  | disconnect c =>
      exact ⟨Nat.le_refl _, fun t ht => Or.inl (List.mem_of_mem_filter ht)⟩
  | timeoutFire r req =>
      exact ⟨Nat.le_refl _, fun t ht => Or.inl (List.mem_of_mem_filter ht)⟩

/-- Once no timer for `rid` is armed and `rid` is below the fresh-id
counter, no later sequence of events ever arms a timer for `rid` again:
its `setTimeout` callback can never run. -/
theorem timer_gone_run (rid : Nat) (es : List InEvent) :
    ∀ s, rid < s.nextUuid → (∀ t ∈ s.armedTimers, t.requestId ≠ rid) →
      rid < (run s es).1.nextUuid ∧
      ∀ t ∈ (run s es).1.armedTimers, t.requestId ≠ rid := by
  induction es with
  | nil => intro s h1 h2; exact ⟨h1, h2⟩
  | cons e es ih =>
      intro s h1 h2
      have hb := step_timers_bound s e
      refine ih _ (lt_of_lt_of_le h1 hb.1) (fun t ht => ?_)
      rcases hb.2 t ht with hmem | hid
      · exact h2 t hmem
      · rw [hid]
        exact Nat.ne_of_gt h1

/-- The `cancel-host-request` handler, computed when a host is present. -/
theorem step_cancel (s : ServerState) (B A : Conn)
    (hA : s.hostSocketId = some A) :
    step s (InEvent.cancelHostRequest B)
      = ({ s with
            pendingRequests := s.pendingRequests.filter (fun pr => pr.requester != B),
            armedTimers := s.armedTimers.filter
              (fun t => !((s.pendingRequests.filter (fun pr => pr.requester == B)).any
                  (fun pr => pr.requestId == t.requestId))) },
         (s.pendingRequests.filter (fun pr => pr.requester == B)).map
           (fun pr => ⟨Target.only A, OutMsg.hostRequestCancelled pr.requestId⟩)) := by
  simp [step, hA]

/-! ### C2: auto-grant on timeout -/

/-- C2: with `hostId = A` and `A ≠ B`, `request-host` from `B` creates a
pending request under the fresh id `s.nextUuid` (distinct from every
existing request id), arms its 30-second timer, notifies only the current
host `A` with `{requestId, requester: B}`, and leaves `hostId = A`; after
any further events none of which releases, denies, cancels or disconnects
that request, the timer is still armed — so its expiry is deliverable —
and firing it sets `hostId = B` unconditionally, broadcasts
`host-changed(B)` to all, and removes the pending request. -/
theorem request_host_auto_grant (s : ServerState) (A B : Conn)
    (es : List InEvent) (hA : s.hostSocketId = some A) (hAB : A ≠ B)
    (hfresh : ∀ pr ∈ s.pendingRequests, pr.requestId < s.nextUuid)
    (hes : ∀ e ∈ es, removesRequest s.nextUuid B e = false) :
    (step s (InEvent.requestHost B)).1.pendingRequests
        = s.pendingRequests ++ [⟨s.nextUuid, B⟩] ∧
    (∀ pr ∈ s.pendingRequests, pr.requestId ≠ s.nextUuid) ∧
    HostTimer.mk s.nextUuid B 30000 ∈ (step s (InEvent.requestHost B)).1.armedTimers ∧
    (step s (InEvent.requestHost B)).2
        = [⟨Target.only A, OutMsg.hostTransferRequest s.nextUuid B⟩] ∧
    (step s (InEvent.requestHost B)).1.hostSocketId = some A ∧
    enabled (run (step s (InEvent.requestHost B)).1 es).1
        (InEvent.timeoutFire s.nextUuid B) ∧
    (step (run (step s (InEvent.requestHost B)).1 es).1
        (InEvent.timeoutFire s.nextUuid B)).1.hostSocketId = some B ∧
    (step (run (step s (InEvent.requestHost B)).1 es).1
        (InEvent.timeoutFire s.nextUuid B)).2
        = [⟨Target.all, OutMsg.hostChanged (some B)⟩] ∧
    ∀ pr ∈ (step (run (step s (InEvent.requestHost B)).1 es).1
        (InEvent.timeoutFire s.nextUuid B)).1.pendingRequests,
      pr.requestId ≠ s.nextUuid := by
  have hstep : step s (InEvent.requestHost B)
      = ({ s with
            pendingRequests := s.pendingRequests ++ [⟨s.nextUuid, B⟩],
            armedTimers := s.armedTimers ++ [⟨s.nextUuid, B, 30000⟩],
            nextUuid := s.nextUuid + 1 },
         [⟨Target.only A, OutMsg.hostTransferRequest s.nextUuid B⟩]) := by
    simp [step, hA, hAB]
  have hlive1 : RequestLive s.nextUuid B (step s (InEvent.requestHost B)).1 := by
    rw [hstep]
    refine ⟨List.mem_append_right _ (List.mem_singleton_self _), Nat.lt_succ_self _, ?_⟩
    intro pr hpr hid
    rcases List.mem_append.mp hpr with h1 | h2
    · exact absurd hid (Nat.ne_of_lt (hfresh pr h1))
    · rw [List.mem_singleton.mp h2]
  have hlive2 := requestLive_run s.nextUuid B es _ hlive1 hes
  refine ⟨by rw [hstep], fun pr hpr => Nat.ne_of_lt (hfresh pr hpr),
    by rw [hstep]; exact List.mem_append_right _ (List.mem_singleton_self _),
    by rw [hstep], by rw [hstep]; exact hA, hlive2.1, rfl, rfl, ?_⟩
  intro pr hpr
  simpa using (List.mem_filter.mp hpr).2

theorem request_host_auto_grant_witness :
    (step (run (step exState (InEvent.requestHost "B")).1
        [InEvent.connect "C"]).1
        (InEvent.timeoutFire exState.nextUuid "B")).1.hostSocketId = some "B" := by
  have h := request_host_auto_grant exState "A" "B" [InEvent.connect "C"] rfl
    (by decide) (by decide) (by decide)
  exact h.2.2.2.2.2.2.1

/-! ### C8: cancellation before the deadline -/

/-- C8: with `hostId = A` (`A ≠ B`), after `request-host` from `B` has
created a pending request, `cancel-host-request` from `B` before the
deadline leaves `hostId = A`, removes every pending request whose
requester is `B` (and exactly those), disarms the timer of every removed
request, notifies the current host with `host-request-cancelled{requestId}`
for each removed request — including the one just created — and no timer
for the created request id is ever armed again afterwards, so its expiry
can never be delivered: the handle is invalidated, not merely ignored. -/
theorem cancel_before_timeout (s : ServerState) (A B : Conn)
    (hA : s.hostSocketId = some A) (hAB : A ≠ B) :
    (step (step s (InEvent.requestHost B)).1
        (InEvent.cancelHostRequest B)).1.hostSocketId = some A ∧
    (∀ pr ∈ (step (step s (InEvent.requestHost B)).1
        (InEvent.cancelHostRequest B)).1.pendingRequests, pr.requester ≠ B) ∧
    (step (step s (InEvent.requestHost B)).1
        (InEvent.cancelHostRequest B)).1.pendingRequests
      = s.pendingRequests.filter (fun pr => pr.requester != B) ∧
    (∀ pr ∈ (step s (InEvent.requestHost B)).1.pendingRequests,
      pr.requester = B →
      ∀ t ∈ (step (step s (InEvent.requestHost B)).1
          (InEvent.cancelHostRequest B)).1.armedTimers,
        t.requestId ≠ pr.requestId) ∧
    (step (step s (InEvent.requestHost B)).1 (InEvent.cancelHostRequest B)).2
      = ((step s (InEvent.requestHost B)).1.pendingRequests.filter
          (fun pr => pr.requester == B)).map
          (fun pr => ⟨Target.only A, OutMsg.hostRequestCancelled pr.requestId⟩) ∧
    Emit.mk (Target.only A) (OutMsg.hostRequestCancelled s.nextUuid)
      ∈ (step (step s (InEvent.requestHost B)).1 (InEvent.cancelHostRequest B)).2 ∧
    ∀ (es : List InEvent) (req : Conn),
      ¬ enabled (run (step (step s (InEvent.requestHost B)).1
          (InEvent.cancelHostRequest B)).1 es).1
        (InEvent.timeoutFire s.nextUuid req) := by
  have hstep : step s (InEvent.requestHost B)
      = ({ s with
            pendingRequests := s.pendingRequests ++ [⟨s.nextUuid, B⟩],
            armedTimers := s.armedTimers ++ [⟨s.nextUuid, B, 30000⟩],
            nextUuid := s.nextUuid + 1 },
         [⟨Target.only A, OutMsg.hostTransferRequest s.nextUuid B⟩]) := by
    simp [step, hA, hAB]
  have hhost1 : (step s (InEvent.requestHost B)).1.hostSocketId = some A := by
    rw [hstep]; exact hA
  have hcan := step_cancel (step s (InEvent.requestHost B)).1 B A hhost1
  have hmem0 : (⟨s.nextUuid, B⟩ : PendingRequest)
      ∈ (step s (InEvent.requestHost B)).1.pendingRequests.filter
          (fun pr => pr.requester == B) := by
    apply List.mem_filter.mpr
    refine ⟨?_, by simp⟩
    rw [hstep]
    exact List.mem_append_right _ (List.mem_singleton_self _)
  have htimers : ∀ pr ∈ (step s (InEvent.requestHost B)).1.pendingRequests,
      pr.requester = B →
      ∀ t ∈ (step (step s (InEvent.requestHost B)).1
          (InEvent.cancelHostRequest B)).1.armedTimers,
        t.requestId ≠ pr.requestId := by
    intro pr hpr hreq t ht
    rw [hcan] at ht
    have hcond := (List.mem_filter.mp ht).2
    simp only [Bool.not_eq_true', List.any_eq_false, List.mem_filter, beq_iff_eq,
      and_imp] at hcond
    intro heq
    exact hcond pr hpr hreq (by rw [heq])
  refine ⟨by rw [hcan]; exact hhost1, ?_, ?_, htimers, by rw [hcan], ?_, ?_⟩
  · intro pr hpr
    rw [hcan] at hpr
    simpa using (List.mem_filter.mp hpr).2
  · rw [hcan, hstep]
    simp [List.filter_append]
  · rw [hcan]
    exact List.mem_map_of_mem _ hmem0
  · intro es req hmem
    have h1 : s.nextUuid < (step (step s (InEvent.requestHost B)).1
        (InEvent.cancelHostRequest B)).1.nextUuid := by
      rw [hcan, hstep]
      exact Nat.lt_succ_self _
    have h2 : ∀ t ∈ (step (step s (InEvent.requestHost B)).1
        (InEvent.cancelHostRequest B)).1.armedTimers, t.requestId ≠ s.nextUuid := by
      intro t ht
      exact htimers ⟨s.nextUuid, B⟩
        (by rw [hstep]; exact List.mem_append_right _ (List.mem_singleton_self _))
        rfl t ht
    have := (timer_gone_run s.nextUuid es _ h1 h2).2 _ hmem
    exact this rfl

theorem cancel_before_timeout_witness :
    (step (step exState (InEvent.requestHost "B")).1
        (InEvent.cancelHostRequest "B")).1.hostSocketId = some "A" ∧
    Emit.mk (Target.only "A") (OutMsg.hostRequestCancelled exState.nextUuid)
      ∈ (step (step exState (InEvent.requestHost "B")).1
          (InEvent.cancelHostRequest "B")).2 := by
  have h := cancel_before_timeout exState "A" "B" rfl (by decide)
  exact ⟨h.1, h.2.2.2.2.2.1⟩

end ProductViewer
